import Mathlib

/-!
Verification of the SEC filings downloader (`sec_filings_downloader.py`).

The Python program is shallowly embedded as executable Lean functions.
All network and filesystem effects are modelled by a `World` of response
functions: a component receives the outcome of each remote call (either a
payload or a raised exception, as `Except PyErr`), and the Lean functions
reproduce the program's own control flow around those outcomes.  Python
strings are modelled as Lean `String`s and the handful of library string
operations the program uses (`in`, `split`, `lower`, `rstrip`, slicing,
`int(...)`, `replace`, `zfill`) are implemented below on `List Char` so
that everything reduces inside the kernel.
-/

/-! ## Python string primitives -/

/-- Python whitespace characters recognised by `str.strip` / `str.rstrip`
(ASCII subset, which is all that occurs in this program's data). -/
def pyIsSpace (c : Char) : Bool :=
  c == ' ' || c == '\t' || c == '\n' || c == '\r' || c == '\x0b' || c == '\x0c'

/-- Does the first list occur as a leading segment of the second? -/
def chStarts : List Char → List Char → Bool
  | [], _ => true
  | _ :: _, [] => false
  | p :: ps, c :: cs => p == c && chStarts ps cs

/-- Does the first list occur contiguously anywhere inside the second? -/
def chSub (p : List Char) : List Char → Bool
  | [] => p.isEmpty
  | c :: cs => chStarts p (c :: cs) || chSub p cs

/-- Python's `pat in s` on strings. -/
def pyIn (pat s : String) : Bool := chSub pat.data s.data

/-- Python's `s.startswith(pat)`. -/
def strStarts (s pat : String) : Bool := chStarts pat.data s.data

/-- Python's `s.lower()` (ASCII). -/
def pyLower (s : String) : String := ⟨s.data.map Char.toLower⟩

/-- Python's `s.upper()` (ASCII). -/
def pyUpper (s : String) : String := ⟨s.data.map Char.toUpper⟩

/-- Python's `s.rstrip()`. -/
def pyRstrip (s : String) : String :=
  ⟨(s.data.reverse.dropWhile pyIsSpace).reverse⟩

/-- Python's `s.strip()`. -/
def pyStrip (s : String) : String :=
  ⟨((s.data.dropWhile pyIsSpace).reverse.dropWhile pyIsSpace).reverse⟩

/-- Python's `s[a:b]` for nonnegative bounds. -/
def pySlice (s : String) (a b : Nat) : String := ⟨(s.data.drop a).take (b - a)⟩

/-- Split a character list at every occurrence of a separator character,
keeping empty segments, as Python's `s.split(sep)` does for a one-character
separator. -/
def splitChars (sep : Char) : List Char → List (List Char)
  | [] => [[]]
  | c :: cs =>
    if c == sep then [] :: splitChars sep cs
    else
      match splitChars sep cs with
      | [] => [[c]]
      | h :: t => (c :: h) :: t

/-- Python's `s.split(sep)` for a one-character separator. -/
def pySplit (s : String) (sep : Char) : List String :=
  (splitChars sep s.data).map (fun l => ⟨l⟩)

/-- Numeric value of a list of decimal digits. -/
def digitsToNat (l : List Char) : Nat :=
  l.foldl (fun a c => a * 10 + (c.toNat - '0'.toNat)) 0

/-- Python's `int(s)`: optional surrounding whitespace, optional sign, at
least one decimal digit; anything else raises `ValueError` (`none` here). -/
def pyInt (s : String) : Option Int :=
  let t := ((s.data.dropWhile pyIsSpace).reverse.dropWhile pyIsSpace).reverse
  match t with
  | [] => none
  | '-' :: ds =>
    if !ds.isEmpty && ds.all Char.isDigit then some (-(digitsToNat ds : Int)) else none
  | '+' :: ds =>
    if !ds.isEmpty && ds.all Char.isDigit then some ((digitsToNat ds : Int)) else none
  | ds =>
    if ds.all Char.isDigit then some ((digitsToNat ds : Int)) else none

/-- Python's `s.zfill(n)` for an unsigned string. -/
def pyZfill (n : Nat) (s : String) : String :=
  ⟨List.replicate (n - s.data.length) '0' ++ s.data⟩

/-- One pass of Python's `s.replace(pat, rep)`: replace every non-overlapping
occurrence, scanning left to right.  The pattern is split into its head
character and tail so the pattern is statically nonempty. -/
def replCh (p : Char) (ps rep : List Char) : List Char → List Char
  | [] => []
  | c :: cs =>
    if c == p && chStarts ps cs then rep ++ replCh p ps rep (cs.drop ps.length)
    else c :: replCh p ps rep cs
termination_by l => l.length
decreasing_by
  · simp; omega
  · simp

/-- Python's `s.replace(pat, rep)` for a nonempty pattern. -/
def pyReplace (s pat rep : String) : String :=
  match pat.data with
  | [] => s
  | p :: ps => ⟨replCh p ps rep.data s.data⟩

/-- Membership-preserving insertion into a Python `dict` modelled as an
association list: an existing key is overwritten in place, a new key is
appended at the end (Python dicts keep insertion order). -/
def dictSet {α : Type} : List (String × α) → String → α → List (String × α)
  | [], k, v => [(k, v)]
  | (k', v') :: rest, k, v =>
    if k' == k then (k, v) :: rest else (k', v') :: dictSet rest k v

/-- Python `dict` lookup. -/
def pyDictGet {α : Type} : List (String × α) → String → Option α
  | [], _ => none
  | (k', v') :: rest, k => if k' == k then some v' else pyDictGet rest k

/-- The list `[a, a+1, ..., b-1]`, Python's `range(a, b)` over integers. -/
def intRange (a b : Int) : List Int :=
  (List.range (b - a).toNat).map (fun i => a + Int.ofNat i)

/-! ## Data model -/

/-- The Python exceptions that can cross the boundaries modelled here. -/
inductive PyErr where
  | attributeError
  | valueError
  | transportError
  | parseError
  deriving DecidableEq

/-- One filing record assembled by `_get_filings_metadata` (source lines
97-102). -/
structure Filing where
  accession_number : String
  filing_date : String
  report_date : String
  form_type : String
  deriving DecidableEq

/-- The `filings.recent` parallel arrays of the submissions JSON (source
lines 88-92). -/
structure RecentFilings where
  form : List String
  accessionNumber : List String
  filingDate : List String
  reportDate : List String

/-- An archive directory-listing response: HTTP status plus the `href`
attributes of all `<a>` tags on the page, in page order (a missing `href`
is the empty string, as `link.get('href', '')` yields). -/
structure DirPage where
  status : Int
  links : List String

/-- A primary-document response: HTTP status plus the visible text that
`BeautifulSoup.get_text(separator='\n')` produces after the tag
stripping/unwrapping of source lines 160-171.  The HTML-to-text step is an
external library call; the program's own line-level cleanup is modelled
below. -/
structure DocPage where
  status : Int
  text : String

/-- The external environment: the outcome of every remote call and file
write the program can make.  `Except.error` models a raised exception at
that call site. -/
structure World where
  searchText : String → Except PyErr String
  submissions : String → Except PyErr (Option RecentFilings)
  dirFetch : String → Except PyErr DirPage
  docFetch : String → Except PyErr DocPage
  writeResult : String → String → Except PyErr Unit

/-- The in-memory CIK cache `self.cik_lookup`. -/
abbrev Cache := List (String × String)

/-- The batch result dict. -/
abbrev ResultMap := List (String × Bool)

/-! ## Identifier resolver (source lines 41-75) -/

/-- The regex search `re.search(r'CIK=(\d+)', text)` of source line 67:
the first position at which `CIK=` is followed by at least one decimal
digit, capturing the maximal digit run. -/
def findCik : List Char → Option (List Char)
  | [] => none
  | c :: rest =>
    if chStarts "CIK=".data (c :: rest) then
      let run := ((c :: rest).drop 4).takeWhile Char.isDigit
      if run.isEmpty then findCik rest else some run
    else findCik rest

/-- Populate `self.cik_lookup` from the bulk ticker table
(`_load_cik_lookup`, source lines 41-54): any failure degrades to an empty
table. -/
def loadCikLookup (r : Except PyErr (List (String × Nat))) : Cache :=
  match r with
  | Except.error _ => []
  | Except.ok entries =>
    entries.foldl (fun m e => dictSet m (pyUpper e.1) (pyZfill 10 (toString e.2))) []

/-- The resolver `_get_cik` (source lines 56-75): cache lookup by uppercased
ticker, then a network search whose transport failures are caught and turned
into `None`; a regex hit is normalised with `str(int(...)).zfill(10)` and
cached. -/
def getCik (w : World) (cache : Cache) (ticker : String) : Option String × Cache :=
  let tu := pyUpper ticker
  match pyDictGet cache tu with
  | some c => (some c, cache)
  | none =>
    match w.searchText ticker with
    | Except.error _ => (none, cache)
    | Except.ok body =>
      match findCik body.data with
      | none => (none, cache)
      | some run =>
        let cik := pyZfill 10 (toString (digitsToNat run))
        (some cik, dictSet cache tu cik)

/-! ## Filing index reader (source lines 77-107) -/

/-- The enumeration loop of source lines 94-102: keep records whose form
matches the requested type and whose positional fields all exist. -/
def gatherFilings (ft : String) (accs fds rds : List String) :
    Nat → List String → List Filing
  | _, [] => []
  | i, f :: fs =>
    if f == ft && decide (i < accs.length) && decide (i < fds.length)
        && decide (i < rds.length) then
      { accession_number := accs.getD i "", filing_date := fds.getD i "",
        report_date := rds.getD i "", form_type := f }
        :: gatherFilings ft accs fds rds (i + 1) fs
    else gatherFilings ft accs fds rds (i + 1) fs

/-- `_get_filings_metadata` (source lines 77-107): any transport or parse
failure, and any missing `filings.recent` section, yields the empty list. -/
def getFilingsMetadata (w : World) (cik ft : String) : List Filing :=
  match w.submissions cik with
  | Except.error _ => []
  | Except.ok none => []
  | Except.ok (some rf) =>
    gatherFilings ft rf.accessionNumber rf.filingDate rf.reportDate 0 rf.form

/-! ## Document extractor: primary-document selection (source lines 124-149) -/

/-- The lowercased final path component of a link target,
`href.split('/')[-1].lower()` (source line 131). -/
def linkFilename (href : String) : String :=
  pyLower ((pySplit href '/').getLastD "")

/-- The condition under which a link enters `all_htm_files` (source lines
130-134): nonempty `href`, pointing into the archive, with `.htm` somewhere
in the lowercased href, whose filename does not contain `index` and whose
href does not contain `/search`. -/
def keepHref (href : String) : Bool :=
  !(href == "") && pyIn "/Archives/edgar" href && pyIn ".htm" (pyLower href)
    && !(pyIn "index" (linkFilename href)) && !(pyIn "/search" href)

/-- The preferred-name test of source line 136: not an exhibit and not a
short `r`-prefixed viewer page. -/
def preferredName (fn : String) : Bool :=
  !(pyIn "exhibit" fn) && !(strStarts fn "r" && decide (fn.data.length < 10))

/-- The link scan of source lines 127-138: the first preferred candidate (if
any) together with all candidates, each paired with its lowercased
filename, in page order. -/
def scanLinks : List String → Option String × List (String × String)
  | [] => (none, [])
  | href :: rest =>
    if keepHref href then
      match scanLinks rest with
      | (m, fs) =>
        ((if preferredName (linkFilename href) then some href else m),
          (linkFilename href, href) :: fs)
    else scanLinks rest

/-- Primary-document selection (source lines 124-149): the first preferred
candidate; failing that, a candidate named exactly `r1.htm`; failing that,
the first candidate; `none` when there are no candidates at all. -/
def selectMainDoc (links : List String) : Option String :=
  match scanLinks links with
  | (some m, _) => some m
  | (none, []) => none
  | (none, f :: fs) =>
    match (f :: fs).find? (fun p => p.1 == "r1.htm") with
    | some p => some p.2
    | none => some f.2

/-! ## Document extractor: line-level cleanup (source lines 173-205) -/

/-- The known inline-XBRL token heads of source line 192. -/
def xbrlTokens : List String :=
  ["aapl:", "us-gaap:", "xbrli:", "iso4217:", "usfr:", "exch:", "dei:"]

/-- The per-line filters of source lines 188-195, applied to a line that has
already passed the blank and start-marker gates: drop XBRL schema URL lines
and short space-free namespace-prefixed tokens. -/
def keepLine (line : String) : Bool :=
  !(pyIn "http" line && (pyIn "fasb.org" line || pyIn "sec.gov/Archives/edgar/xmlbrl" line))
    && !(decide ((pyStrip line).data.length < 100) && pyIn ":" line && !(pyIn " " line)
          && xbrlTokens.any (fun p => strStarts line p))

/-- The line loop of source lines 173-195: rstrip each line, drop blank
lines, suppress everything until a line containing `UNITED STATES` has been
seen, then apply the per-line filters. -/
def procLines (found : Bool) : List String → List String
  | [] => []
  | l :: rest =>
    if pyRstrip l == "" then procLines found rest
    else if found || pyIn "UNITED STATES" (pyRstrip l) then
      (if keepLine (pyRstrip l) then [pyRstrip l] else []) ++ procLines true rest
    else procLines found rest

/-- The cleaned line list for a raw extracted text (source lines 173-195),
starting before the `UNITED STATES` marker has been seen. -/
def cleanLines (text : String) : List String :=
  procLines false (pySplit text '\n')

/-- Python's `'\n'.join(lines)` (source line 197). -/
def joinNl : List String → String
  | [] => ""
  | [l] => l
  | l :: l' :: rest => l ++ "\n" ++ joinNl (l' :: rest)

/-- The collapse loop of source lines 199-200, fuelled: each iteration that
fires strictly shrinks the string, so `length + 1` rounds always reach the
fixpoint the `while` loop computes. -/
def collapseFuel : Nat → String → String
  | 0, s => s
  | n + 1, s =>
    if pyIn "\n\n\n" s then collapseFuel n (pyReplace s "\n\n\n" "\n\n") else s

/-- `while '\n\n\n' in cleaned: cleaned = cleaned.replace('\n\n\n','\n\n')`
(source lines 199-200). -/
def collapseBlank (s : String) : String := collapseFuel (s.data.length + 1) s

/-- The fully cleaned text of one fetched document (source lines 173-200). -/
def cleanedText (text : String) : String :=
  collapseBlank (joinNl (cleanLines text))

/-- The extractor's final content gate (source lines 202-205): return the
cleaned text only when it is longer than 5000 characters. -/
def cleanDocument (text : String) : Option String :=
  if 5000 < (cleanedText text).data.length then some (cleanedText text) else none

/-! ## Document extractor: end to end (source lines 109-209) -/

/-- Python's `s.lstrip('0')`. -/
def stripLeadingZeros (s : String) : String :=
  ⟨s.data.dropWhile (fun c => c == '0')⟩

/-- Python's `s.replace('-', '')`. -/
def removeDashes (s : String) : String :=
  ⟨s.data.filter (fun c => !(c == '-'))⟩

/-- The archive directory URL of source lines 113-116. -/
def dirUrl (cik acc : String) : String :=
  let cikNum := if stripLeadingZeros cik == "" then "0" else stripLeadingZeros cik
  "https://www.sec.gov/Archives/edgar/data/" ++ cikNum ++ "/" ++ removeDashes acc ++ "/"

/-- `_fetch_filing_from_edgar` (source lines 109-209).  The whole body is
wrapped in `try/except` in the source, so every raised exception becomes
`none`; non-200 statuses and the content-length gate also yield `none`. -/
def fetchFilingFromEdgar (w : World) (cik acc : String) : Option String :=
  match w.dirFetch (dirUrl cik acc) with
  | Except.error _ => none
  | Except.ok page =>
    if !(page.status == 200) then none
    else
      match selectMainDoc page.links with
      | none => none
      | some mainDoc =>
        let url := if strStarts mainDoc "/" then "https://www.sec.gov" ++ mainDoc
                   else mainDoc
        match w.docFetch url with
        | Except.error _ => none
        | Except.ok dp =>
          if !(dp.status == 200) then none else cleanDocument dp.text

/-! ## Filing selector (source lines 240-275) -/

/-- The month-to-quarter formula `(month - 1) // 3 + 1` (Python floor
division), as written at source lines 273 and 299. -/
def derivedQuarter (m : Int) : Int := (m - 1).fdiv 3 + 1

/-- The quarter derived from a `report_date` while filtering quarterly
filings (source lines 269-273); a failed `int(...)` is `none` (the record
is skipped). -/
def filterQuarterOf (rd : String) : Option Int :=
  match pyInt (pySlice rd 5 7) with
  | none => none
  | some m => some (derivedQuarter m)

/-- The quarter derived from a `report_date` while building the output
filename (source lines 298-299); a failed `int(...)` is `none` (a raised
`ValueError` at that call site). -/
def filenameQuarterOf (rd : String) : Option Int :=
  match pyInt (pySlice rd 5 7) with
  | none => none
  | some m => some (derivedQuarter m)

/-- The selection loop of source lines 247-275, for a non-`all` policy,
given the already computed current year: keep a filing when its
filing-date year parses and lies in the year window, and (for `10-Q` with
an explicit quarter) when its derived report-date quarter matches. -/
def selectFilings (ft : String) (year quarter : Option Int) (currentYear : Int)
    (filings : List Filing) : List Filing :=
  let yearsToInclude : List Int :=
    match year with
    | some y => [y]
    | none => intRange (currentYear - 9) (currentYear + 1)
  filings.filter (fun f =>
    match pyInt (pySlice f.filing_date 0 4) with
    | none => false
    | some fy =>
      if !(yearsToInclude.contains fy) then false
      else if ft == "10-K" then true
      else
        match quarter with
        | none => true
        | some q =>
          match filterQuarterOf f.report_date with
          | none => false
          | some fq => fq == q)

/-! ## Persistence writer (source lines 293-311) -/

/-- The output filename of source lines 293-302.  For `10-Q` the
`int(matching_filing['report_date'][5:7])` call sits outside any
`try/except`, so a parse failure is a raised `ValueError`. -/
def filingFilename (ft ticker : String) (f : Filing) : Except PyErr String :=
  if ft == "10-K" then
    Except.ok ("10K-" ++ pyUpper ticker ++ "-" ++ pySlice f.filing_date 0 4 ++ ".txt")
  else
    match filenameQuarterOf f.report_date with
    | none => Except.error PyErr.valueError
    | some q =>
      Except.ok ("10Q-" ++ pyUpper ticker ++ "-Q" ++ toString q
        ++ pySlice f.filing_date 0 4 ++ ".txt")

/-- The output path of source lines 305-309,
`output_folder / ticker.upper() / 'original' / filename`, with `Path`
joining modelled as `/`-concatenation. -/
def outputPathFor (root ticker fname : String) : String :=
  root ++ "/" ++ pyUpper ticker ++ "/original/" ++ fname

/-! ## download_filing (source lines 211-317) -/

/-- The quarter validation of source lines 223-226: a present quarter
outside 1-4. -/
def quarterInvalid : Option Int → Bool
  | none => false
  | some q => !(q == 1 || q == 2 || q == 3 || q == 4)

/-- Source line 241, `datetime.now(datetime.timezone.utc).year`.  Under the
file's `from datetime import datetime`, the name `datetime` is the class
`datetime.datetime`, which has no attribute `timezone`, so the expression
raises `AttributeError` before `now` is ever called. -/
def currentYearExpr : Except PyErr Int := Except.error PyErr.attributeError

/-- The per-filing download loop of source lines 281-316, carrying
`all_successful`.  A fetch failure or a write failure (including the
`TypeError` of joining onto a `None` output folder, raised and caught
inside the `try` of lines 304-315) records failure and continues; a
filename `ValueError` (line 298) propagates. -/
def processLoop (w : World) (folder10k folder10q : Option String)
    (cik ticker ft : String) (allSuccess : Bool) :
    List Filing → Except PyErr Bool
  | [] => Except.ok allSuccess
  | f :: fs =>
    match fetchFilingFromEdgar w cik f.accession_number with
    | none => processLoop w folder10k folder10q cik ticker ft false fs
    | some text =>
      match filingFilename ft ticker f with
      | Except.error e => Except.error e
      | Except.ok fname =>
        match (if ft == "10-K" then folder10k else folder10q) with
        | none => processLoop w folder10k folder10q cik ticker ft false fs
        | some root =>
          match w.writeResult (outputPathFor root ticker fname) text with
          | Except.error _ => processLoop w folder10k folder10q cik ticker ft false fs
          | Except.ok _ => processLoop w folder10k folder10q cik ticker ft allSuccess fs

/-- `download_filing` (source lines 211-317), with the object state
(`self.output_folder_10k`, `self.output_folder_10q`, `self.cik_lookup`)
passed explicitly and the updated CIK cache returned.  `Except.error`
models an exception escaping the method. -/
def downloadFiling (w : World) (folder10k folder10q : Option String)
    (cache : Cache) (ticker ft : String) (year quarter : Option Int)
    (downloadAll : Bool) : Except PyErr (Bool × Cache) :=
  if !(ft == "10-K" || ft == "10-Q") then Except.ok (false, cache)
  else if ft == "10-Q" && quarterInvalid quarter then Except.ok (false, cache)
  else
    match getCik w cache ticker with
    | (none, cache1) => Except.ok (false, cache1)
    | (some cik, cache1) =>
      if cik == "" then Except.ok (false, cache1)
      else
        let filings := getFilingsMetadata w cik ft
        if filings.isEmpty then Except.ok (false, cache1)
        else
          match currentYearExpr with
          | Except.error e => Except.error e
          | Except.ok currentYear =>
            let matching :=
              if downloadAll then filings
              else selectFilings ft year quarter currentYear filings
            if matching.isEmpty then Except.ok (false, cache1)
            else
              match processLoop w folder10k folder10q cik ticker ft true matching with
              | Except.error e => Except.error e
              | Except.ok ok => Except.ok (ok, cache1)

/-! ## download_batch (source lines 319-341) -/

/-- The result key `f"{ticker}-{filing_type}-{year}"`. -/
def yearKey (t ft : String) (y : Int) : String := t ++ "-" ++ ft ++ "-" ++ toString y

/-- The result key `f"{ticker}-{filing_type}-all"`. -/
def allKey (t ft : String) : String := t ++ "-" ++ ft ++ "-all"

/-- The result key `f"{ticker}-{filing_type}"`. -/
def plainKey (t ft : String) : String := t ++ "-" ++ ft

/-- The inner year loop of source lines 334-336. -/
def runYears (w : World) (folder10k folder10q : Option String) (t ft : String) :
    Cache × ResultMap → List Int → Except PyErr (Cache × ResultMap)
  | st, [] => Except.ok st
  | (c, d), y :: ys =>
    match downloadFiling w folder10k folder10q c t ft (some y) none false with
    | Except.error e => Except.error e
    | Except.ok (b, c') =>
      runYears w folder10k folder10q t ft (c', dictSet d (yearKey t ft y) b) ys

/-- The body of one iteration of the filing-type loop (source lines
330-339): the `download_all` branch, the truthy-years branch (`elif years:`
is Python truthiness, so only a present, nonempty year list takes it), or
the single no-year call, each recording its unit key. -/
def runTypeStep (w : World) (folder10k folder10q : Option String)
    (years : Option (List Int)) (all : Bool) (t ft : String)
    (c : Cache) (d : ResultMap) : Except PyErr (Cache × ResultMap) :=
  if all then
    match downloadFiling w folder10k folder10q c t ft none none true with
    | Except.error e => Except.error e
    | Except.ok (b, c') => Except.ok (c', dictSet d (allKey t ft) b)
  else
    match years with
    | some (y :: ys) => runYears w folder10k folder10q t ft (c, d) (y :: ys)
    | _ =>
      match downloadFiling w folder10k folder10q c t ft none none false with
      | Except.error e => Except.error e
      | Except.ok (b, c') => Except.ok (c', dictSet d (plainKey t ft) b)

def runTypes (w : World) (folder10k folder10q : Option String)
    (years : Option (List Int)) (all : Bool) (t : String) :
    Cache × ResultMap → List String → Except PyErr (Cache × ResultMap)
  | st, [] => Except.ok st
  | (c, d), ft :: fts =>
    match runTypeStep w folder10k folder10q years all t ft c d with
    | Except.error e => Except.error e
    | Except.ok st' => runTypes w folder10k folder10q years all t st' fts

/-- The ticker loop of source lines 328-339. -/
def runTickers (w : World) (folder10k folder10q : Option String)
    (fts : List String) (years : Option (List Int)) (all : Bool) :
    Cache × ResultMap → List String → Except PyErr (Cache × ResultMap)
  | st, [] => Except.ok st
  | st, t :: ts =>
    match runTypes w folder10k folder10q years all t st fts with
    | Except.error e => Except.error e
    | Except.ok st' => runTickers w folder10k folder10q fts years all st' ts

/-- `download_batch` (source lines 319-341): the per-unit result dict, or
the exception that escaped it. -/
def downloadBatch (w : World) (folder10k folder10q : Option String)
    (cache0 : Cache) (tickers fts : List String) (years : Option (List Int))
    (all : Bool) : Except PyErr ResultMap :=
  match runTickers w folder10k folder10q fts years all (cache0, []) tickers with
  | Except.error e => Except.error e
  | Except.ok (_, d) => Except.ok d

/-! ## Constructor (source lines 23-36) -/

/-- The output-folder initialisation of `SECFilingDownloader.__init__`
(source lines 23-32), with `Path(...)` modelled as the raw string: all
three arguments `None` raises `ValueError`; both category folders `None`
duplicates the shared folder; otherwise each category folder is kept only
when truthy (non-`None` and nonempty), the other left `None`. -/
def initFolders (k q shared : Option String) :
    Except PyErr (Option String × Option String) :=
  if k == none && q == none && shared == none then Except.error PyErr.valueError
  else if k == none && q == none then Except.ok (shared, shared)
  else
    Except.ok
      ((match k with | some s => if !(s == "") then some s else none | none => none),
       (match q with | some s => if !(s == "") then some s else none | none => none))

/-! ## Specification-side definitions

These re-state selection and path derivation in the claim's own vocabulary
(filter / first-match), to be compared with the loop-shaped definitions
translated from the source. -/

/-- Candidate rule exactly as the claim words it: hyperlink targets pointing
into the archive whose lowercased FILENAME contains `.htm`, excluding
`index` filenames and `/search` paths. -/
def claimedCandidate (href : String) : Bool :=
  pyIn "/Archives/edgar" href && pyIn ".htm" (linkFilename href)
    && !(pyIn "index" (linkFilename href)) && !(pyIn "/search" href)

/-- Primary-document selection with the claim's original candidate rule:
first preferred candidate, else the `r1.htm` candidate, else the first
candidate, else failure. -/
def selectMainDocClaimed (links : List String) : Option String :=
  match (links.filter claimedCandidate).find? (fun h => preferredName (linkFilename h)) with
  | some h => some h
  | none =>
    match (links.filter claimedCandidate).find? (fun h => linkFilename h == "r1.htm") with
    | some h => some h
    | none => (links.filter claimedCandidate).head?

/-- Primary-document selection as the amended claim words it, with the
candidate rule the code actually applies (`.htm` tested against the whole
lowercased href): first preferred candidate, else the `r1.htm` candidate,
else the first candidate, else failure. -/
def selectMainDocStated (links : List String) : Option String :=
  match (links.filter keepHref).find? (fun h => preferredName (linkFilename h)) with
  | some h => some h
  | none =>
    match (links.filter keepHref).find? (fun h => linkFilename h == "r1.htm") with
    | some h => some h
    | none => (links.filter keepHref).head?

/-! ## Concrete instances and claim-side keys -/

/-- A submissions record with one `10-K` filing dated 2022-02-15. -/
def rf22 : RecentFilings :=
  { form := ["10-K"], accessionNumber := ["0000320193-22-000001"],
    filingDate := ["2022-02-15"], reportDate := ["2021-09-25"] }

/-- A concrete environment in which the ticker resolves from the cache and
the filing index returns `rf22`. -/
def w1 : World :=
  { searchText := fun _ => Except.error PyErr.transportError,
    submissions := fun _ => Except.ok (some rf22),
    dirFetch := fun _ => Except.error PyErr.transportError,
    docFetch := fun _ => Except.error PyErr.transportError,
    writeResult := fun _ _ => Except.error PyErr.transportError }

/-- A CIK cache already holding the ticker. -/
def cache1 : Cache := [("AAPL", "0000320193")]

/-- The annual output path exactly as the claim words it. -/
def claimPath10K (root ticker : String) (f : Filing) : String :=
  root ++ "/" ++ pyUpper ticker ++ "/original/"
    ++ ("10K-" ++ pyUpper ticker ++ "-" ++ pySlice f.filing_date 0 4 ++ ".txt")

/-- The quarterly output path exactly as the claim words it, for derived
quarter `q`. -/
def claimPath10Q (root ticker : String) (q : Int) (f : Filing) : String :=
  root ++ "/" ++ pyUpper ticker ++ "/original/"
    ++ ("10Q-" ++ pyUpper ticker ++ "-Q" ++ toString q
      ++ pySlice f.filing_date 0 4 ++ ".txt")

/-- The result keys one (ticker, filing-type) pair contributes, mirroring
the branching of source lines 330-339. -/
def typeKeys (t ft : String) (years : Option (List Int)) (all : Bool) : List String :=
  if all then [allKey t ft]
  else
    match years with
    | some (y :: ys) => (y :: ys).map (yearKey t ft)
    | _ => [plainKey t ft]

/-- All result keys `download_batch` is supposed to populate, in unit
order. -/
def batchKeys (tickers fts : List String) (years : Option (List Int))
    (all : Bool) : List String :=
  tickers.flatMap (fun t => fts.flatMap (fun ft => typeKeys t ft years all))

/-- A fetched document of 5001 characters: a single line opening with the
`UNITED STATES` marker followed by a run of `a`s, with no markup, URLs or
namespace tokens, so cleanup keeps the whole line and its cleaned text
exceeds 5000 characters. -/
def longDoc : String := ⟨"UNITED STATES".data ++ List.replicate 4988 'a'⟩

/-- An environment in which every network call fails at transport level, so
each unit fails resolution and reports `False`. -/
def w0 : World :=
  { searchText := fun _ => Except.error PyErr.transportError,
    submissions := fun _ => Except.ok none,
    dirFetch := fun _ => Except.error PyErr.transportError,
    docFetch := fun _ => Except.error PyErr.transportError,
    writeResult := fun _ _ => Except.error PyErr.transportError }

/-! ## C1: primary-document selection -/

theorem scanLinks_eq (links : List String) :
    scanLinks links
      = ((links.filter keepHref).find? (fun h => preferredName (linkFilename h)),
        (links.filter keepHref).map (fun h => (linkFilename h, h))) := by
  induction links with
  | nil => rfl
  | cons href rest ih =>
    cases hk : keepHref href with
    | false => simp [scanLinks, List.filter_cons, hk, ih]
    | true =>
      cases hp : preferredName (linkFilename href) with
      | false =>
        simp [scanLinks, List.filter_cons, hk, hp, ih, List.find?_cons_of_neg]
      | true =>
        simp [scanLinks, List.filter_cons, hk, hp, ih, List.find?_cons_of_pos]

theorem find?_r1_map (l : List String) :
    ((l.map (fun h => (linkFilename h, h))).find? (fun p => p.1 == "r1.htm"))
      = (l.find? (fun h => linkFilename h == "r1.htm")).map
          (fun h => (linkFilename h, h)) := by
  induction l with
  | nil => rfl
  | cons h t ih =>
    cases hr : linkFilename h == "r1.htm" with
    | true => simp [List.find?_cons_of_pos, hr]
    | false => simp [List.find?_cons_of_neg, hr, ih]

/-- C1 (amended): the extractor's primary-document choice agrees everywhere
with the claim's candidate/preference/fallback description once the
candidate rule tests `.htm` against the whole lowercased href, and in
particular a listing holding only `exhibit99.htm` and `r1.htm` yields
`r1.htm`. -/
theorem c1_select :
    (∀ links : List String, selectMainDoc links = selectMainDocStated links) ∧
      selectMainDoc ["/Archives/edgar/data/320193/000032019322000001/exhibit99.htm",
          "/Archives/edgar/data/320193/000032019322000001/r1.htm"]
        = some "/Archives/edgar/data/320193/000032019322000001/r1.htm" := by
  constructor
  · intro links
    unfold selectMainDoc selectMainDocStated
    rw [scanLinks_eq]
    cases hf : (links.filter keepHref).find? (fun h => preferredName (linkFilename h)) with
    | some h => rfl
    | none =>
      cases hc : links.filter keepHref with
      | nil => rfl
      | cons c cs =>
        simp only [List.map_cons]
        rw [show ((linkFilename c, c) :: List.map (fun h => (linkFilename h, h)) cs)
              = (c :: cs).map (fun h => (linkFilename h, h)) from rfl,
          find?_r1_map]
        cases hr : (c :: cs).find? (fun h => linkFilename h == "r1.htm") with
        | some h => rfl
        | none => rfl
  · decide

/-- C1 (counterexample to the claim as stated): for a link whose filename
lacks `.htm` but whose path carries it in a directory component, the claim's
candidate rule sees no candidates at all (so selection should fail), yet the
code selects the link. -/
theorem c1_counterexample :
    selectMainDoc ["/Archives/edgar/data/1/x.htm/notes.txt"]
        = some "/Archives/edgar/data/1/x.htm/notes.txt" ∧
      selectMainDocClaimed ["/Archives/edgar/data/1/x.htm/notes.txt"] = none := by
  constructor <;> decide

/-! ## C2 and C4: the current-year AttributeError -/

/-- C2 (code bug): with an explicit year, a resolvable ticker and a
non-empty filing list, `download_filing` raises `AttributeError` at the
`datetime.now(datetime.timezone.utc).year` expression of source line 241,
before any year-window selection can happen, so the claimed selection
semantics never execute. -/
theorem c2_crash :
    downloadFiling w1 (some "/out10k") (some "/out10q") cache1 "AAPL" "10-K"
        (some 2022) none false
      = Except.error PyErr.attributeError := rfl

/-- C4 (code bug): even under the `all` policy, `download_filing` raises the
same `AttributeError` at source line 241, which executes unconditionally
before the `download_all` branch, so the input list is never returned. -/
theorem c4_crash :
    downloadFiling w1 (some "/out10k") (some "/out10q") cache1 "AAPL" "10-K"
        none none true
      = Except.error PyErr.attributeError := rfl

/-! ## C3: quarter derivation -/

/-- C3: for any month 1-12 the derived quarter is `(month - 1) // 3 + 1`
and lies in 1..4; and the quarter derived while filtering quarterly filings
always equals the quarter derived while building the output filename, for
any report-date string. -/
theorem c3_quarter :
    (∀ m : Int, 1 ≤ m → m ≤ 12 →
        derivedQuarter m = (m - 1).fdiv 3 + 1 ∧
          (derivedQuarter m = 1 ∨ derivedQuarter m = 2 ∨ derivedQuarter m = 3 ∨
            derivedQuarter m = 4)) ∧
      ∀ rd : String, filterQuarterOf rd = filenameQuarterOf rd := by
  constructor
  · intro m h1 h2
    refine ⟨rfl, ?_⟩
    interval_cases m <;> decide
  · intro rd
    rfl

theorem c3_quarter_witness :
    (1 : Int) ≤ 9 ∧ (9 : Int) ≤ 12 ∧
      (derivedQuarter 9 = ((9 : Int) - 1).fdiv 3 + 1 ∧
        (derivedQuarter 9 = 1 ∨ derivedQuarter 9 = 2 ∨ derivedQuarter 9 = 3 ∨
          derivedQuarter 9 = 4)) :=
  ⟨by decide, by decide, c3_quarter.1 9 (by decide) (by decide)⟩

/-! ## C6: minimum-content gate -/

/-- C6: a cleaned text of length at most 5000 makes the extractor report
failure; a cleaned text longer than 5000 characters is returned as the
extracted document; and any document the extractor does return is exactly
the cleaned text and is strictly longer than 5000 characters — never a
valid short document. -/
theorem c6_threshold (text : String) :
    ((cleanedText text).data.length ≤ 5000 → cleanDocument text = none) ∧
      (5000 < (cleanedText text).data.length →
        cleanDocument text = some (cleanedText text)) ∧
      (∀ d, cleanDocument text = some d →
        d = cleanedText text ∧ 5000 < d.data.length) := by
  refine ⟨fun h => ?_, fun h => ?_, fun d h => ?_⟩
  · unfold cleanDocument
    rw [if_neg]
    omega
  · unfold cleanDocument
    rw [if_pos h]
  · unfold cleanDocument at h
    by_cases h5 : 5000 < (cleanedText text).data.length
    · rw [if_pos h5] at h
      cases h
      exact ⟨rfl, h5⟩
    · rw [if_neg h5] at h
      cases h

theorem chStarts_append (p r : List Char) : chStarts p (p ++ r) = true := by
  induction p with
  | nil => rfl
  | cons c cs ih => simp [chStarts, ih]

theorem chSub_of_chStarts {p l : List Char} (h : chStarts p l = true) :
    chSub p l = true := by
  cases l with
  | nil =>
    cases p with
    | nil => rfl
    | cons c cs => simp [chStarts] at h
  | cons c cs => simp [chSub, h]

theorem chSub_eq_false {p : Char} {ps l : List Char} (h : p ∉ l) :
    chSub (p :: ps) l = false := by
  induction l with
  | nil => rfl
  | cons c cs ih =>
    have hcp : (p == c) = false := by
      simp only [beq_eq_false_iff_ne, ne_eq]
      intro he
      exact h (he ▸ List.mem_cons_self c cs)
    simp only [chSub, chStarts, hcp, Bool.false_and, Bool.false_or]
    exact ih (fun hm => h (List.mem_cons_of_mem c hm))

theorem chSub_singleton {c : Char} {l : List Char} (h : c ∈ l) :
    chSub [c] l = true := by
  induction l with
  | nil => cases h
  | cons a as ih =>
    rcases List.mem_cons.mp h with h1 | h2
    · simp [chSub, chStarts, h1]
    · simp [chSub, chStarts, ih h2]

theorem splitChars_of_not_mem {sep : Char} {l : List Char} (h : sep ∉ l) :
    splitChars sep l = [l] := by
  induction l with
  | nil => rfl
  | cons c cs ih =>
    have hc : (c == sep) = false := by
      simp only [beq_eq_false_iff_ne, ne_eq]
      intro he
      exact h (he ▸ List.mem_cons_self c cs)
    simp [splitChars, hc, ih (fun hm => h (List.mem_cons_of_mem c hm))]

theorem collapseFuel_succ_of_no_blank {s : String} (n : Nat)
    (h : pyIn "\n\n\n" s = false) : collapseFuel (n + 1) s = s := by
  rw [collapseFuel, h]
  rfl

theorem run_no_char (k : Nat) (c : Char) (h1 : c ∉ "UNITED STATES".data)
    (h2 : ¬(c = 'a')) :
    c ∉ ("UNITED STATES".data ++ List.replicate k 'a') := by
  intro hc
  rcases List.mem_append.mp hc with hA | hB
  · exact h1 hA
  · exact h2 (List.eq_of_mem_replicate hB)

theorem rstrip_run (k : Nat) :
    pyRstrip ⟨"UNITED STATES".data ++ List.replicate (k + 1) 'a'⟩
      = ⟨"UNITED STATES".data ++ List.replicate (k + 1) 'a'⟩ := by
  unfold pyRstrip
  congr 1
  show (("UNITED STATES".data ++ List.replicate (k + 1) 'a').reverse.dropWhile
      pyIsSpace).reverse = "UNITED STATES".data ++ List.replicate (k + 1) 'a'
  have hrev : ("UNITED STATES".data ++ List.replicate (k + 1) 'a').reverse
      = 'a' :: (List.replicate k 'a' ++ "UNITED STATES".data.reverse) := by
    rw [List.reverse_append, List.reverse_replicate, List.replicate_succ,
      List.cons_append]
  rw [hrev, List.dropWhile_cons, if_neg (show ¬(pyIsSpace 'a' = true) from by decide),
    ← hrev, List.reverse_reverse]

theorem cleanedText_run (k : Nat) :
    cleanedText ⟨"UNITED STATES".data ++ List.replicate (k + 1) 'a'⟩
      = ⟨"UNITED STATES".data ++ List.replicate (k + 1) 'a'⟩ := by
  have hnl : '\n' ∉ ("UNITED STATES".data ++ List.replicate (k + 1) 'a') :=
    run_no_char (k + 1) '\n' (by decide) (by decide)
  have hrs := rstrip_run k
  have hne : ((⟨"UNITED STATES".data ++ List.replicate (k + 1) 'a'⟩ : String) == "")
      = false := rfl
  have hmk : pyIn "UNITED STATES"
      ⟨"UNITED STATES".data ++ List.replicate (k + 1) 'a'⟩ = true := by
    unfold pyIn
    exact chSub_of_chStarts (chStarts_append _ _)
  have hhttp : pyIn "http"
      ⟨"UNITED STATES".data ++ List.replicate (k + 1) 'a'⟩ = false := by
    unfold pyIn
    exact chSub_eq_false (run_no_char (k + 1) 'h' (by decide) (by decide))
  have hsp : pyIn " "
      ⟨"UNITED STATES".data ++ List.replicate (k + 1) 'a'⟩ = true := by
    unfold pyIn
    exact chSub_singleton (List.mem_append.mpr (Or.inl (by decide)))
  have hkeep : keepLine ⟨"UNITED STATES".data ++ List.replicate (k + 1) 'a'⟩
      = true := by
    unfold keepLine
    rw [hhttp, hsp]
    simp
  have hsplit : pySplit ⟨"UNITED STATES".data ++ List.replicate (k + 1) 'a'⟩ '\n'
      = [⟨"UNITED STATES".data ++ List.replicate (k + 1) 'a'⟩] := by
    unfold pySplit
    rw [show (⟨"UNITED STATES".data ++ List.replicate (k + 1) 'a'⟩ : String).data
          = "UNITED STATES".data ++ List.replicate (k + 1) 'a' from rfl,
      splitChars_of_not_mem hnl]
    rfl
  have hnlin : pyIn "\n\n\n"
      ⟨"UNITED STATES".data ++ List.replicate (k + 1) 'a'⟩ = false := by
    unfold pyIn
    exact chSub_eq_false hnl
  unfold cleanedText cleanLines
  rw [hsplit]
  simp only [procLines]
  rw [hrs, hne, if_neg (show ¬(false = true) from by decide), hmk, Bool.false_or,
    if_pos rfl, hkeep, if_pos rfl, List.append_nil]
  simp only [joinNl]
  unfold collapseBlank
  exact collapseFuel_succ_of_no_blank _ hnlin

theorem cleanedText_longDoc : cleanedText longDoc = longDoc := by
  have h := cleanedText_run 4987
  rw [show (4987 + 1 : Nat) = 4988 from rfl] at h
  exact h

theorem cleanedText_longDoc_long : 5000 < (cleanedText longDoc).data.length := by
  rw [cleanedText_longDoc,
    show longDoc.data = "UNITED STATES".data ++ List.replicate 4988 'a' from rfl,
    List.length_append, List.length_replicate,
    show "UNITED STATES".data.length = 13 from rfl]
  decide

theorem c6_threshold_witness :
    ((cleanedText "placeholder page").data.length ≤ 5000 ∧
        cleanDocument "placeholder page" = none) ∧
      (5000 < (cleanedText longDoc).data.length ∧
        cleanDocument longDoc = some (cleanedText longDoc)) :=
  ⟨⟨by decide, (c6_threshold "placeholder page").1 (by decide)⟩,
    ⟨cleanedText_longDoc_long, (c6_threshold longDoc).2.1 cleanedText_longDoc_long⟩⟩

/-! ## C7: the UNITED STATES start marker -/

theorem procLines_start (ls : List String) :
    procLines false ls
      = procLines true (ls.dropWhile (fun l => !(pyIn "UNITED STATES" (pyRstrip l)))) := by
  induction ls with
  | nil => rfl
  | cons l rest ih =>
    cases hm : pyIn "UNITED STATES" (pyRstrip l) with
    | false =>
      cases he : pyRstrip l == "" with
      | true => simp [procLines, List.dropWhile_cons, hm, he, ih]
      | false => simp [procLines, List.dropWhile_cons, hm, he, ih]
    | true =>
      have he : (pyRstrip l == "") = false := by
        cases h0 : pyRstrip l == "" with
        | false => rfl
        | true =>
          have hempty : pyRstrip l = "" := eq_of_beq h0
          rw [hempty] at hm
          exact absurd hm (by decide)
      simp [procLines, List.dropWhile_cons, hm, he]

/-- C7: every line before the first (rstripped) line containing
`UNITED STATES` is discarded — cleaning from the initial state equals
cleaning the suffix that starts at the first marker line with the marker
already seen — and if no line contains the marker, every line is dropped. -/
theorem c7_marker (text : String) :
    cleanLines text
        = procLines true ((pySplit text '\n').dropWhile
            (fun l => !(pyIn "UNITED STATES" (pyRstrip l)))) ∧
      ((∀ l ∈ pySplit text '\n', pyIn "UNITED STATES" (pyRstrip l) = false) →
        cleanLines text = []) := by
  refine ⟨procLines_start _, fun h => ?_⟩
  unfold cleanLines
  rw [procLines_start]
  have hnil : (pySplit text '\n').dropWhile
      (fun l => !(pyIn "UNITED STATES" (pyRstrip l))) = [] := by
    rw [List.dropWhile_eq_nil_iff]
    intro l hl
    simp [h l hl]
  rw [hnil]
  rfl

theorem c7_marker_witness :
    (∀ l ∈ pySplit "nav menu\nsome footer text" '\n',
        pyIn "UNITED STATES" (pyRstrip l) = false) ∧
      cleanLines "nav menu\nsome footer text" = [] :=
  ⟨by decide, (c7_marker "nav menu\nsome footer text").2 (by decide)⟩

/-! ## C9: constructor output folders -/

/-- C9: all three folder arguments `None` raises `ValueError`; a shared
folder alone populates both category roots with it; a single category
folder leaves the other category's root `None` whatever the shared argument
is. -/
theorem c9_init :
    initFolders none none none = Except.error PyErr.valueError ∧
      (∀ s : String, initFolders none none (some s) = Except.ok (some s, some s)) ∧
      (∀ s : String, ¬(s = "") → ∀ sh : Option String,
        initFolders (some s) none sh = Except.ok (some s, none)) ∧
      (∀ s : String, ¬(s = "") → ∀ sh : Option String,
        initFolders none (some s) sh = Except.ok (none, some s)) := by
  refine ⟨rfl, fun s => rfl, fun s hs sh => ?_, fun s hs sh => ?_⟩
  · simp [initFolders, hs]
  · simp [initFolders, hs]

theorem c9_init_witness :
    ¬(("10k-out" : String) = "") ∧
      initFolders (some "10k-out") none (some "shared")
        = Except.ok (some "10k-out", none) :=
  ⟨by decide, c9_init.2.2.1 "10k-out" (by decide) (some "shared")⟩

/-! ## C8: deterministic output paths -/

/-- C8: the written path is exactly the claimed
`{root}/{SYMBOL}/original/{derived filename}` for both categories, and
depends only on the symbol, category, filing-date year slice and derived
report-date quarter — so two writes for the same symbol, category and
period produce the identical path. -/
theorem c8_path :
    (∀ (root ticker : String) (f : Filing),
        (filingFilename "10-K" ticker f).map (outputPathFor root ticker)
          = Except.ok (claimPath10K root ticker f)) ∧
      (∀ (root ticker : String) (f : Filing) (q : Int),
        filenameQuarterOf f.report_date = some q →
        (filingFilename "10-Q" ticker f).map (outputPathFor root ticker)
          = Except.ok (claimPath10Q root ticker q f)) ∧
      (∀ (ft ticker : String) (f1 f2 : Filing),
        pySlice f1.filing_date 0 4 = pySlice f2.filing_date 0 4 →
        filenameQuarterOf f1.report_date = filenameQuarterOf f2.report_date →
        filingFilename ft ticker f1 = filingFilename ft ticker f2) := by
  refine ⟨fun root ticker f => rfl, fun root ticker f q hq => ?_, ?_⟩
  · simp [filingFilename, hq, Except.map, outputPathFor, claimPath10Q]
  · intro ft ticker f1 f2 hy hq
    unfold filingFilename
    cases hft : ft == "10-K" with
    | true => simp [hy]
    | false => rw [hq, hy]

theorem c8_path_witness :
    filenameQuarterOf ("2021-09-25" : String) = some 3 ∧
      (filingFilename "10-Q" "aapl"
          { accession_number := "a1", filing_date := "2022-02-15",
            report_date := "2021-09-25", form_type := "10-Q" }).map
          (outputPathFor "/out" "aapl")
        = Except.ok (claimPath10Q "/out" "aapl" 3
            { accession_number := "a1", filing_date := "2022-02-15",
              report_date := "2021-09-25", form_type := "10-Q" }) :=
  ⟨by decide, c8_path.2.1 "/out" "aapl"
    { accession_number := "a1", filing_date := "2022-02-15",
      report_date := "2021-09-25", form_type := "10-Q" } 3 (by decide)⟩

/-! ## C10: argument validation -/

/-- C10: an unsupported filing type, or an out-of-range explicit quarter for
`10-Q`, makes `download_filing` return `False` at once, with the CIK cache
untouched and no dependence on the environment; and with filing type
`10-K` a quarter argument is neither validated nor used — the result is
identical for every quarter value. -/
theorem c10_validation :
    (∀ (w : World) (fk fq : Option String) (c : Cache) (t ft : String)
        (y q : Option Int) (a : Bool), ¬(ft = "10-K") → ¬(ft = "10-Q") →
        downloadFiling w fk fq c t ft y q a = Except.ok (false, c)) ∧
      (∀ (w : World) (fk fq : Option String) (c : Cache) (t : String)
        (y : Option Int) (qv : Int) (a : Bool),
        ¬(qv = 1) → ¬(qv = 2) → ¬(qv = 3) → ¬(qv = 4) →
        downloadFiling w fk fq c t "10-Q" y (some qv) a = Except.ok (false, c)) ∧
      (∀ (w : World) (fk fq : Option String) (c : Cache) (t : String)
        (y q q' : Option Int) (a : Bool),
        downloadFiling w fk fq c t "10-K" y q a
          = downloadFiling w fk fq c t "10-K" y q' a) := by
  refine ⟨fun w fk fq c t ft y q a h1 h2 => ?_, fun w fk fq c t y qv a h1 h2 h3 h4 => ?_,
    fun w fk fq c t y q q' a => rfl⟩
  · simp [downloadFiling, h1, h2]
  · simp [downloadFiling, quarterInvalid, h1, h2, h3, h4]

theorem c10_validation_witness :
    ¬(("8-K" : String) = "10-K") ∧ ¬(("8-K" : String) = "10-Q") ∧
      downloadFiling w1 (some "/out10k") (some "/out10q") cache1 "AAPL" "8-K"
          none none false
        = Except.ok (false, cache1) :=
  ⟨by decide, by decide,
    c10_validation.1 w1 (some "/out10k") (some "/out10q") cache1 "AAPL" "8-K"
      none none false (by decide) (by decide)⟩

/-! ## C5: batch isolation of failures -/

theorem mem_fst_dictSet_self {α : Type} (m : List (String × α)) (k : String) (v : α) :
    k ∈ (dictSet m k v).map Prod.fst := by
  induction m with
  | nil => simp [dictSet]
  | cons p rest ih =>
    obtain ⟨k', v'⟩ := p
    cases hk : k' == k with
    | true => simp [dictSet, hk]
    | false => simp [dictSet, hk, ih]

theorem mem_fst_dictSet_mono {α : Type} (m : List (String × α)) (k : String) (v : α)
    (k0 : String) (h : k0 ∈ m.map Prod.fst) : k0 ∈ (dictSet m k v).map Prod.fst := by
  induction m with
  | nil => simp at h
  | cons p rest ih =>
    obtain ⟨k', v'⟩ := p
    cases hk : k' == k with
    | true =>
      have hkk : k' = k := eq_of_beq hk
      simp [dictSet, hk]
      rcases (List.mem_cons.mp h) with h1 | h2
      · left; rw [← hkk]; simpa using h1
      · right; simpa using h2
    | false =>
      simp [dictSet, hk]
      rcases (List.mem_cons.mp h) with h1 | h2
      · left; simpa using h1
      · right; exact List.mem_map.mp (ih (by simpa using h2)) |>.elim
          (fun x hx => by simpa [← hx.2] using List.mem_map_of_mem Prod.fst hx.1)

/-- Every exception escaping `download_filing` is the line-241
`AttributeError`: resolution, extraction and write failures are all
converted to a `False` result instead. -/
theorem downloadFiling_error_eq (w : World) (fk fq : Option String) (c : Cache)
    (t ft : String) (y q : Option Int) (a : Bool) (e : PyErr)
    (h : downloadFiling w fk fq c t ft y q a = Except.error e) :
    e = PyErr.attributeError := by
  simp only [downloadFiling, currentYearExpr] at h
  repeat' split at h
  all_goals simp_all

theorem runYears_cases (w : World) (fk fq : Option String) (t ft : String) :
    ∀ (ys : List Int) (c : Cache) (d : ResultMap),
      (∀ e, runYears w fk fq t ft (c, d) ys = Except.error e → e = PyErr.attributeError) ∧
      (∀ c' d', runYears w fk fq t ft (c, d) ys = Except.ok (c', d') →
        (∀ k, k ∈ d.map Prod.fst → k ∈ d'.map Prod.fst) ∧
        (∀ y ∈ ys, yearKey t ft y ∈ d'.map Prod.fst)) := by
  intro ys
  induction ys with
  | nil =>
    intro c d
    refine ⟨fun e h => by simp [runYears] at h, fun c' d' h => ?_⟩
    simp [runYears] at h
    obtain ⟨hc, hd⟩ := h
    subst hd
    exact ⟨fun k hk => hk, fun y hy => absurd hy (List.not_mem_nil y)⟩
  | cons y ys ih =>
    intro c d
    constructor
    · intro e h
      rw [runYears] at h
      cases hdf : downloadFiling w fk fq c t ft (some y) none false with
      | error e' =>
        rw [hdf] at h
        cases h
        exact downloadFiling_error_eq w fk fq c t ft (some y) none false e hdf
      | ok p =>
        obtain ⟨b, c2⟩ := p
        rw [hdf] at h
        exact (ih c2 (dictSet d (yearKey t ft y) b)).1 e h
    · intro c' d' h
      rw [runYears] at h
      cases hdf : downloadFiling w fk fq c t ft (some y) none false with
      | error e' => rw [hdf] at h; cases h
      | ok p =>
        obtain ⟨b, c2⟩ := p
        rw [hdf] at h
        obtain ⟨mono, keys⟩ := (ih c2 (dictSet d (yearKey t ft y) b)).2 c' d' h
        refine ⟨fun k hk => mono k (mem_fst_dictSet_mono d (yearKey t ft y) b k hk), ?_⟩
        intro y' hy'
        rcases List.mem_cons.mp hy' with h1 | h2
        · rw [h1]; exact mono _ (mem_fst_dictSet_self d (yearKey t ft y) b)
        · exact keys y' h2

theorem runTypeStep_cases (w : World) (fk fq : Option String)
    (years : Option (List Int)) (all : Bool) (t ft : String)
    (c : Cache) (d : ResultMap) :
    (∀ e, runTypeStep w fk fq years all t ft c d = Except.error e →
        e = PyErr.attributeError) ∧
      (∀ c' d', runTypeStep w fk fq years all t ft c d = Except.ok (c', d') →
        (∀ k, k ∈ d.map Prod.fst → k ∈ d'.map Prod.fst) ∧
        (∀ k ∈ typeKeys t ft years all, k ∈ d'.map Prod.fst)) := by
  cases all with
  | true =>
    constructor
    · intro e h
      unfold runTypeStep at h
      rw [if_pos (rfl : (true : Bool) = true)] at h
      cases hdf : downloadFiling w fk fq c t ft none none true with
      | error e1 =>
        rw [hdf] at h
        cases h
        exact downloadFiling_error_eq w fk fq c t ft none none true e hdf
      | ok p => obtain ⟨b, c2⟩ := p; rw [hdf] at h; cases h
    · intro c' d' h
      unfold runTypeStep at h
      rw [if_pos (rfl : (true : Bool) = true)] at h
      cases hdf : downloadFiling w fk fq c t ft none none true with
      | error e1 => rw [hdf] at h; cases h
      | ok p =>
        obtain ⟨b, c2⟩ := p
        rw [hdf] at h
        cases h
        refine ⟨fun k hk => mem_fst_dictSet_mono d (allKey t ft) b k hk, ?_⟩
        intro k hk
        have hk' : k = allKey t ft := by simpa [typeKeys] using hk
        rw [hk']
        exact mem_fst_dictSet_self d (allKey t ft) b
  | false =>
    have hnottrue : ¬((false : Bool) = true) := by decide
    cases years with
    | none =>
      constructor
      · intro e h
        unfold runTypeStep at h
        rw [if_neg hnottrue] at h
        cases hdf : downloadFiling w fk fq c t ft none none false with
        | error e1 =>
          rw [hdf] at h
          cases h
          exact downloadFiling_error_eq w fk fq c t ft none none false e hdf
        | ok p => obtain ⟨b, c2⟩ := p; rw [hdf] at h; cases h
      · intro c' d' h
        unfold runTypeStep at h
        rw [if_neg hnottrue] at h
        cases hdf : downloadFiling w fk fq c t ft none none false with
        | error e1 => rw [hdf] at h; cases h
        | ok p =>
          obtain ⟨b, c2⟩ := p
          rw [hdf] at h
          cases h
          refine ⟨fun k hk => mem_fst_dictSet_mono d (plainKey t ft) b k hk, ?_⟩
          intro k hk
          have hk' : k = plainKey t ft := by simpa [typeKeys] using hk
          rw [hk']
          exact mem_fst_dictSet_self d (plainKey t ft) b
    | some ys0 =>
      cases ys0 with
      | nil =>
        constructor
        · intro e h
          unfold runTypeStep at h
          rw [if_neg hnottrue] at h
          cases hdf : downloadFiling w fk fq c t ft none none false with
          | error e1 =>
            rw [hdf] at h
            cases h
            exact downloadFiling_error_eq w fk fq c t ft none none false e hdf
          | ok p => obtain ⟨b, c2⟩ := p; rw [hdf] at h; cases h
        · intro c' d' h
          unfold runTypeStep at h
          rw [if_neg hnottrue] at h
          cases hdf : downloadFiling w fk fq c t ft none none false with
          | error e1 => rw [hdf] at h; cases h
          | ok p =>
            obtain ⟨b, c2⟩ := p
            rw [hdf] at h
            cases h
            refine ⟨fun k hk => mem_fst_dictSet_mono d (plainKey t ft) b k hk, ?_⟩
            intro k hk
            have hk' : k = plainKey t ft := by simpa [typeKeys] using hk
            rw [hk']
            exact mem_fst_dictSet_self d (plainKey t ft) b
      | cons y ys =>
        constructor
        · intro e h
          unfold runTypeStep at h
          rw [if_neg hnottrue] at h
          exact (runYears_cases w fk fq t ft (y :: ys) c d).1 e h
        · intro c' d' h
          unfold runTypeStep at h
          rw [if_neg hnottrue] at h
          obtain ⟨mono, keys⟩ := (runYears_cases w fk fq t ft (y :: ys) c d).2 c' d' h
          refine ⟨mono, ?_⟩
          intro k hk
          have hk' : k ∈ (y :: ys).map (yearKey t ft) := by simpa [typeKeys] using hk
          obtain ⟨y', hy', heq⟩ := List.mem_map.mp hk'
          rw [← heq]
          exact keys y' hy'

theorem runTypes_cases (w : World) (fk fq : Option String)
    (years : Option (List Int)) (all : Bool) (t : String) :
    ∀ (fts : List String) (c : Cache) (d : ResultMap),
      (∀ e, runTypes w fk fq years all t (c, d) fts = Except.error e →
          e = PyErr.attributeError) ∧
      (∀ c' d', runTypes w fk fq years all t (c, d) fts = Except.ok (c', d') →
        (∀ k, k ∈ d.map Prod.fst → k ∈ d'.map Prod.fst) ∧
        (∀ ft ∈ fts, ∀ k ∈ typeKeys t ft years all, k ∈ d'.map Prod.fst)) := by
  intro fts
  induction fts with
  | nil =>
    intro c d
    refine ⟨fun e h => by simp [runTypes] at h, fun c' d' h => ?_⟩
    simp [runTypes] at h
    obtain ⟨hc, hd⟩ := h
    subst hd
    exact ⟨fun k hk => hk, fun ft hft => absurd hft (List.not_mem_nil ft)⟩
  | cons ft fts ih =>
    intro c d
    constructor
    · intro e h
      rw [runTypes] at h
      cases hst : runTypeStep w fk fq years all t ft c d with
      | error e1 =>
        rw [hst] at h
        cases h
        exact (runTypeStep_cases w fk fq years all t ft c d).1 e hst
      | ok st2 =>
        obtain ⟨c2, d2⟩ := st2
        rw [hst] at h
        exact (ih c2 d2).1 e h
    · intro c' d' h
      rw [runTypes] at h
      cases hst : runTypeStep w fk fq years all t ft c d with
      | error e1 => rw [hst] at h; cases h
      | ok st2 =>
        obtain ⟨c2, d2⟩ := st2
        rw [hst] at h
        obtain ⟨mono1, keys1⟩ := (runTypeStep_cases w fk fq years all t ft c d).2 c2 d2 hst
        obtain ⟨mono2, keys2⟩ := (ih c2 d2).2 c' d' h
        refine ⟨fun k hk => mono2 k (mono1 k hk), ?_⟩
        intro ft' hft' k hk
        rcases List.mem_cons.mp hft' with h1 | h2
        · rw [h1] at hk
          exact mono2 k (keys1 k hk)
        · exact keys2 ft' h2 k hk

theorem runTickers_cases (w : World) (fk fq : Option String)
    (fts : List String) (years : Option (List Int)) (all : Bool) :
    ∀ (ts : List String) (c : Cache) (d : ResultMap),
      (∀ e, runTickers w fk fq fts years all (c, d) ts = Except.error e →
          e = PyErr.attributeError) ∧
      (∀ c' d', runTickers w fk fq fts years all (c, d) ts = Except.ok (c', d') →
        (∀ k, k ∈ d.map Prod.fst → k ∈ d'.map Prod.fst) ∧
        (∀ t ∈ ts, ∀ ft ∈ fts, ∀ k ∈ typeKeys t ft years all,
          k ∈ d'.map Prod.fst)) := by
  intro ts
  induction ts with
  | nil =>
    intro c d
    refine ⟨fun e h => by simp [runTickers] at h, fun c' d' h => ?_⟩
    simp [runTickers] at h
    obtain ⟨hc, hd⟩ := h
    subst hd
    exact ⟨fun k hk => hk, fun t ht => absurd ht (List.not_mem_nil t)⟩
  | cons t ts ih =>
    intro c d
    constructor
    · intro e h
      rw [runTickers] at h
      cases hrt : runTypes w fk fq years all t (c, d) fts with
      | error e1 =>
        rw [hrt] at h
        cases h
        exact (runTypes_cases w fk fq years all t fts c d).1 e hrt
      | ok st2 =>
        obtain ⟨c2, d2⟩ := st2
        rw [hrt] at h
        exact (ih c2 d2).1 e h
    · intro c' d' h
      rw [runTickers] at h
      cases hrt : runTypes w fk fq years all t (c, d) fts with
      | error e1 => rw [hrt] at h; cases h
      | ok st2 =>
        obtain ⟨c2, d2⟩ := st2
        rw [hrt] at h
        obtain ⟨mono1, keys1⟩ := (runTypes_cases w fk fq years all t fts c d).2 c2 d2 hrt
        obtain ⟨mono2, keys2⟩ := (ih c2 d2).2 c' d' h
        refine ⟨fun k hk => mono2 k (mono1 k hk), ?_⟩
        intro t' ht' ft hft k hk
        rcases List.mem_cons.mp ht' with h1 | h2
        · rw [h1] at hk
          exact mono2 k (keys1 ft hft k hk)
        · exact keys2 t' h2 ft hft k hk

/-- C5: a `download_batch` run either completes with an entry for every
(symbol, category[, year]) unit — per-unit resolution, extraction and write
failures are recorded as `False` results and the batch continues — or
aborts only with the line-241 `AttributeError`; in particular no transport
or parse exception ever escapes to the batch caller, since every component
converts those to empty or `False` results. -/
theorem c5_batch (w : World) (fk fq : Option String) (cache0 : Cache)
    (tickers fts : List String) (years : Option (List Int)) (all : Bool) :
    (∀ e, downloadBatch w fk fq cache0 tickers fts years all = Except.error e →
        e = PyErr.attributeError) ∧
      (∀ m, downloadBatch w fk fq cache0 tickers fts years all = Except.ok m →
        ∀ k ∈ batchKeys tickers fts years all, k ∈ m.map Prod.fst) := by
  constructor
  · intro e h
    unfold downloadBatch at h
    cases hrt : runTickers w fk fq fts years all (cache0, []) tickers with
    | error e1 =>
      rw [hrt] at h
      cases h
      exact (runTickers_cases w fk fq fts years all tickers cache0 []).1 e hrt
    | ok st =>
      obtain ⟨c', d'⟩ := st
      rw [hrt] at h
      cases h
  · intro m h k hk
    unfold downloadBatch at h
    cases hrt : runTickers w fk fq fts years all (cache0, []) tickers with
    | error e1 => rw [hrt] at h; cases h
    | ok st =>
      obtain ⟨c', d'⟩ := st
      rw [hrt] at h
      cases h
      obtain ⟨-, keys⟩ :=
        (runTickers_cases w fk fq fts years all tickers cache0 []).2 c' m hrt
      rw [batchKeys] at hk
      obtain ⟨t, ht, hk2⟩ := List.mem_flatMap.mp hk
      obtain ⟨ft, hft, hk3⟩ := List.mem_flatMap.mp hk2
      exact keys t ht ft hft k hk3

theorem c5_batch_witness :
    downloadBatch w0 (some "/k") (some "/q") [] ["AA", "BB"] ["10-K"] none false
        = Except.ok [("AA-10-K", false), ("BB-10-K", false)] ∧
      "BB-10-K" ∈ ([("AA-10-K", false), ("BB-10-K", false)] : ResultMap).map Prod.fst :=
  ⟨rfl,
    (c5_batch w0 (some "/k") (some "/q") [] ["AA", "BB"] ["10-K"] none false).2
      [("AA-10-K", false), ("BB-10-K", false)] rfl "BB-10-K" (by decide)⟩
